import Mathlib

/-! Verification development for the proxy-server repository: a shallow
embedding of the forward HTTP proxy in `src/http_proxy/proxy.go` and
`src/http_proxy/blockedset.go` (header discipline, request dispatch,
on-disk response cache with its entry codec and staleness policy, and the
blocked-domain filter), together with theorems settling the frozen claims
about it. -/

set_option autoImplicit false

namespace ProxyGo

/-! ## Association-list primitives

Go's `http.Header` and the cache directory are both keyed maps.  They are
modelled as association lists (`List (String × α)`); lookup and deletion
match Go map indexing `m[k]` and `delete(m, k)` on the exact key. -/

/-- Association-list lookup by exact key, modelling Go map indexing `m[k]`
(`none` when the key is absent). -/
def alistFind {α : Type} (l : List (String × α)) (k : String) : Option α :=
  (l.find? (fun p => p.1 == k)).map (fun p => p.2)

/-- Remove every binding of the exact key `k`, modelling Go `delete(m, k)`. -/
def alistErase {α : Type} (l : List (String × α)) (k : String) : List (String × α) :=
  l.filter (fun p => p.1 != k)

/-! ## Go string helpers used by the proxy

`strings.Contains`, `strings.Split`, `strings.TrimSpace`, `strings.Join` and
`strconv.Atoi` are standard-library functions the source calls; they are
embedded here with their documented behaviour. -/

/-- Auxiliary for `goContains`: does `needle` occur as a contiguous sublist? -/
def hasSubList (needle : List Char) : List Char → Bool
  | [] => needle.isEmpty
  | c :: cs => List.isPrefixOf needle (c :: cs) || hasSubList needle cs

/-- strings.Contains(s, sub): substring containment (true for the empty
substring). -/
def goContains (s sub : String) : Bool :=
  hasSubList sub.data s.data

/-- Numeric value of a digit string (helper for `goAtoi`). -/
def digitsVal (ds : List Char) : Nat :=
  ds.foldl (fun a c => a * 10 + (c.toNat - 48)) 0

/-- Core of strconv.Atoi after the optional sign: all characters must be
decimal digits, the string must be non-empty, and the signed result must fit
in a 64-bit integer (Go reports ErrRange otherwise, which the caller treats
as failure). -/
def goAtoiCore (sign : Int) (ds : List Char) : Option Int :=
  if ds.isEmpty then none
  else if !(ds.all (fun c => c.isDigit)) then none
  else
    let v : Int := sign * (digitsVal ds : Int)
    if -9223372036854775808 ≤ v && v < 9223372036854775808 then some v else none

/-- strconv.Atoi: an optional sign followed by decimal digits; `none` models
a non-nil error (empty input, non-digit characters, or 64-bit overflow). -/
def goAtoi (s : String) : Option Int :=
  match s.data with
  | '+' :: ds => goAtoiCore 1 ds
  | '-' :: ds => goAtoiCore (-1) ds
  | ds => goAtoiCore 1 ds

/-! ## Header names and canonicalisation -/

/-- Bytes allowed in a header field name, per net/textproto. -/
def validHeaderFieldChar (c : Char) : Bool :=
  let n := c.toNat
  (48 ≤ n && n ≤ 57) || (65 ≤ n && n ≤ 90) || (97 ≤ n && n ≤ 122) ||
    n == 33 || n == 35 || n == 36 || n == 37 || n == 38 || n == 39 || n == 42 ||
    n == 43 || n == 45 || n == 46 || n == 94 || n == 95 || n == 96 || n == 124 || n == 126

/-- Uppercase an ASCII letter. -/
def upChar (c : Char) : Char :=
  if c.isLower then Char.ofNat (c.toNat - 32) else c

/-- Lowercase an ASCII letter. -/
def downChar (c : Char) : Char :=
  if c.isUpper then Char.ofNat (c.toNat + 32) else c

/-- Case-fold a header name: uppercase at the start and after each hyphen,
lowercase elsewhere. -/
def canonAux : Bool → List Char → List Char
  | _, [] => []
  | upper, c :: cs =>
    let c2 := if upper then upChar c else downChar c
    c2 :: canonAux (c2 == '-') cs

/-- textproto.CanonicalMIMEHeaderKey: canonical-case a header field name;
a name holding an invalid byte is returned unchanged. -/
def CanonicalMIMEHeaderKey (s : String) : String :=
  if s.data.all validHeaderFieldChar then String.mk (canonAux true s.data) else s

/-! ## http.Header

`http.Header` is `map[string][]string` with canonical-cased keys.  It is
modelled as an association list in insertion order (Go map iteration order is
unspecified; no claim depends on it).  `Set` re-inserts at the end — the
position of a binding inside the map is not observable. -/

/-- Go http.Header: header name → list of values. -/
abbrev Header := List (String × List String)

/-- Raw map indexing `h[k]` (no canonicalisation), as used by
`removeConnectionHeaders` and `appendHostToXForwardHeader`. -/
def Header.get? (h : Header) (k : String) : Option (List String) :=
  alistFind h k

/-- http.Header.Get: canonicalise the key and return the first value, or the
empty string when the header is absent. -/
def Header.Get (h : Header) (k : String) : String :=
  match alistFind h (CanonicalMIMEHeaderKey k) with
  | some (v :: _) => v
  | _ => ""

/-- http.Header.Del: delete the canonicalised key. -/
def Header.Del (h : Header) (k : String) : Header :=
  alistErase h (CanonicalMIMEHeaderKey k)

/-- http.Header.Set: replace the canonicalised key's values with the single
value `v`. -/
def Header.Set (h : Header) (k v : String) : Header :=
  alistErase h (CanonicalMIMEHeaderKey k) ++ [(CanonicalMIMEHeaderKey k, [v])]

/-- http.Header.Add: append `v` to the canonicalised key's values. -/
def Header.Add (h : Header) (k v : String) : Header :=
  let ck := CanonicalMIMEHeaderKey k
  match alistFind h ck with
  | some _ => h.map (fun p => if p.1 == ck then (p.1, p.2 ++ [v]) else p)
  | none => h ++ [(ck, [v])]

/-! ## Header helper functions of proxy.go -/

/-- The nine hop-by-hop headers removed when forwarding (proxy.go, `hopHeaders`). -/
def hopHeaders : List String :=
  ["Connection", "Proxy-Connection", "Keep-Alive", "Proxy-Authenticate",
   "Proxy-Authorization", "Te", "Trailer", "Transfer-Encoding", "Upgrade"]

/-- copyHeader: add every value of `src` to `dst` (proxy.go lines 49-55). -/
def copyHeader (dst src : Header) : Header :=
  src.foldl (fun d p => p.2.foldl (fun d2 v => Header.Add d2 p.1 v) d) dst

/-- removeHopHeaders: delete each of the nine hop-by-hop headers
(proxy.go lines 57-62). -/
def removeHopHeaders (header : Header) : Header :=
  hopHeaders.foldl (fun h k => Header.Del h k) header

/-- removeConnectionHeaders: for each value of the raw `Connection` key,
split on commas, trim, and delete every named header (proxy.go lines 64-74).
The value slice `h[Connection]` is read once, before any deletion. -/
def removeConnectionHeaders (h : Header) : Header :=
  match Header.get? h "Connection" with
  | none => h
  | some fs =>
    fs.foldl (fun acc f =>
      (f.splitOn ",").foldl (fun acc2 sf =>
        if sf.trim == "" then acc2 else Header.Del acc2 sf.trim) acc) h

/-- appendHostToXForwardHeader: fold any prior `X-Forwarded-For` values into a
comma-space separated list ending with `host` (proxy.go lines 80-88). -/
def appendHostToXForwardHeader (header : Header) (host : String) : Header :=
  match Header.get? header "X-Forwarded-For" with
  | some prior =>
    Header.Set header "X-Forwarded-For" (String.intercalate ", " prior ++ ", " ++ host)
  | none => Header.Set header "X-Forwarded-For" host

/-! ## CacheEntry and its serialized form

`CacheEntry` carries the fields of the Go struct; `time.Time` is modelled as
wall-clock nanoseconds (`Int`), and the body as a byte list.  The source
serializes with encoding/gob (standard-library code), whose contract for this
struct is a lossless, self-describing round trip of every field; that codec
is modelled by the concrete length-prefixed token encoding below, with
`none` from the decoder standing for the error on which the source calls
`panic`.  The gob decoder reads exactly one value and ignores trailing
bytes, as does `decEntry`. -/

/-- The cached response record (proxy.go, `CacheEntry`). -/
structure CacheEntry where
  Value : List Nat
  Header : List (String × List String)
  MaxAge : Int
  LastModified : String
  CreationTime : Int
  StatusCode : Int
deriving DecidableEq

/-- Encode a signed integer: a sign tag followed by the magnitude. -/
def encInt (i : Int) : List Nat :=
  if 0 ≤ i then [0, i.toNat] else [1, (-i).toNat]

/-- Encode a string: its length followed by its character codes. -/
def encStr (s : String) : List Nat :=
  s.data.length :: s.data.map Char.toNat

/-- Encode a list of strings back to back (count is emitted by the caller). -/
def encStrList : List String → List Nat
  | [] => []
  | v :: vs => encStr v ++ encStrList vs

/-- Encode header entries: for each entry its name, its value count, and its
values, back to back (entry count is emitted by the caller). -/
def encHeaderEntries : List (String × List String) → List Nat
  | [] => []
  | (k, vs) :: t => encStr k ++ (vs.length :: encStrList vs) ++ encHeaderEntries t

/-- CacheEntry.Bytes: serialize the entry (proxy.go lines 401-409); the
fields are emitted in declaration order, each in self-describing form. -/
def CacheEntry.Bytes (e : CacheEntry) : List Nat :=
  (e.Value.length :: e.Value) ++
    ((e.Header.length :: encHeaderEntries e.Header) ++
      (encInt e.MaxAge ++
        (encStr e.LastModified ++
          (encInt e.CreationTime ++ encInt e.StatusCode))))

/-- Read one leading token. -/
def decNat : List Nat → Option (Nat × List Nat)
  | [] => none
  | n :: r => some (n, r)

/-- Read exactly `n` tokens, failing on truncated input. -/
def decTake : Nat → List Nat → Option (List Nat × List Nat)
  | 0, l => some ([], l)
  | _ + 1, [] => none
  | n + 1, x :: l =>
    match decTake n l with
    | some (xs, r) => some (x :: xs, r)
    | none => none

/-- Read a length-prefixed byte block. -/
def decBytes (l : List Nat) : Option (List Nat × List Nat) :=
  match decNat l with
  | some (n, r) => decTake n r
  | none => none

/-- Read a signed integer. -/
def decInt : List Nat → Option (Int × List Nat)
  | 0 :: m :: r => some ((m : Int), r)
  | 1 :: m :: r => some (-(m : Int), r)
  | _ => none

/-- Read a length-prefixed string. -/
def decStr (l : List Nat) : Option (String × List Nat) :=
  match decBytes l with
  | some (cs, r) => some (String.mk (cs.map Char.ofNat), r)
  | none => none

/-- Read `n` strings. -/
def decStrList : Nat → List Nat → Option (List String × List Nat)
  | 0, l => some ([], l)
  | n + 1, l =>
    match decStr l with
    | some (v, r) =>
      match decStrList n r with
      | some (vs, r2) => some (v :: vs, r2)
      | none => none
    | none => none

/-- Read `n` header entries. -/
def decHeaderEntries : Nat → List Nat → Option (List (String × List String) × List Nat)
  | 0, l => some ([], l)
  | n + 1, l =>
    match decStr l with
    | some (k, r) =>
      match decNat r with
      | some (m, r1) =>
        match decStrList m r1 with
        | some (vs, r2) =>
          match decHeaderEntries n r2 with
          | some (t, r3) => some ((k, vs) :: t, r3)
          | none => none
        | none => none
      | none => none
    | none => none

/-- Decode one CacheEntry value, returning the unread remainder. -/
def decEntry (l : List Nat) : Option (CacheEntry × List Nat) :=
  (decBytes l).bind (fun p1 =>
  (decNat p1.2).bind (fun pn =>
  (decHeaderEntries pn.1 pn.2).bind (fun p2 =>
  (decInt p2.2).bind (fun p3 =>
  (decStr p3.2).bind (fun p4 =>
  (decInt p4.2).bind (fun p5 =>
  (decInt p5.2).map (fun p6 =>
    ({ Value := p1.1, Header := p2.1, MaxAge := p3.1, LastModified := p4.1,
       CreationTime := p5.1, StatusCode := p6.1 }, p6.2))))))))

/-- CacheEntryFromBytes (proxy.go lines 411-420): decode a blob; `none`
models the decode error on which the source calls `panic(err)` instead of
returning. -/
def CacheEntryFromBytes (data : List Nat) : Option CacheEntry :=
  match decEntry data with
  | some (e, _) => some e
  | none => none

/-! ## HTTPCache

The cache directory is modelled as an association list from file name (the
cache key) to file contents.  I/O never fails in the model; the source logs
and swallows write errors, and read errors other than absence are logged and
reported as a miss, so no claim depends on them. -/

/-- The on-disk cache directory: one file per key. -/
abbrev FS := List (String × List Nat)

/-- Contents of the file for `k`, or `none` when absent. -/
def FS.lookup (fs : FS) (k : String) : Option (List Nat) :=
  alistFind fs k

/-- os.WriteFile: create or truncate the file for `k`. -/
def FS.write (fs : FS) (k : String) (data : List Nat) : FS :=
  alistErase fs k ++ [(k, data)]

/-- os.Remove: delete the file for `k`. -/
def FS.remove (fs : FS) (k : String) : FS :=
  alistErase fs k

/-- CacheKey (proxy.go lines 392-399): the hex-encoded SHA-1 fingerprint of
the request's URL string.  The hash is standard-library code and no claim
depends on its value, so it is modelled as the identity embedding of the URL
string (an injective key derivation, which SHA-1 is treated as by the
source — the spec accepts collisions as out of scope). -/
def HTTPCache.CacheKey (url : String) : String := url

/-- Two's-complement wrap-around of 64-bit signed arithmetic
(9223372036854775808 = 2^63, 18446744073709551616 = 2^64). -/
def int64Wrap (x : Int) : Int :=
  (x + 9223372036854775808) % 18446744073709551616 - 9223372036854775808

/-- time.Duration(maxAge) * time.Second (proxy.go line 514): multiplication
by 10^9 in 64-bit signed arithmetic, wrapping on overflow as Go int64
multiplication does. -/
def maxAgeDuration (maxAge : Int) : Int :=
  int64Wrap (maxAge * 1000000000)

/-- CacheEntry.isStale (proxy.go lines 504-529): stale when `MaxAge` is 0;
for positive `MaxAge`, stale iff the age `now - CreationTime` (nanoseconds)
exceeds the wrapped duration; stale for every negative `MaxAge`. -/
def CacheEntry.isStale (e : CacheEntry) (now : Int) : Bool :=
  if e.MaxAge = 0 then true
  else if 0 < e.MaxAge then
    decide (now - e.CreationTime > maxAgeDuration e.MaxAge)
  else true

/-- A request as the handler sees it: method, URL scheme, full URL string,
the URL's hostname, and the header map. -/
structure Request where
  method : String
  scheme : String
  url : String
  hostname : String
  header : Header
deriving DecidableEq

/-- An HTTP response: status code, headers, body bytes. -/
structure Response where
  status : Int
  header : Header
  body : List Nat
deriving DecidableEq

/-- HTTPCache.RemoveCache (proxy.go lines 489-503): remove the cache file. -/
def HTTPCache.RemoveCache (fs : FS) (key : String) : FS :=
  FS.remove fs key

/-- Result of `HTTPCache.Get`: either the pair the Go function returns
together with the directory state it leaves behind, or `panicked` when
`CacheEntryFromBytes` panics on undecodable file contents. -/
inductive GetResult where
  | panicked : GetResult
  | ok : Option Response → Bool → FS → GetResult
deriving DecidableEq

/-- HTTPCache.Get (proxy.go lines 450-482): read the file for the request's
key (absence is a miss), decode it (a decode failure panics), evict and miss
when stale, otherwise build the synthetic response from the entry. -/
def HTTPCache.Get (fs : FS) (now : Int) (req : Request) : GetResult :=
  let key := HTTPCache.CacheKey req.url
  match FS.lookup fs key with
  | none => .ok none false fs
  | some data =>
    match CacheEntryFromBytes data with
    | none => .panicked
    | some entry =>
      if CacheEntry.isStale entry now then
        .ok none false (HTTPCache.RemoveCache fs key)
      else
        .ok (some { status := entry.StatusCode, header := entry.Header,
                    body := entry.Value }) true fs

/-- HTTPCache.Put (proxy.go lines 421-449): buffer the response body, build
the entry with `CreationTime = now`, serialize it, write the file, and hand
the buffered body back to the caller. -/
def HTTPCache.Put (fs : FS) (now : Int) (req : Request) (resp : Response)
    (maxAge : Int) (lastModified : String) : FS × List Nat :=
  let key := HTTPCache.CacheKey req.url
  let entry : CacheEntry :=
    { Value := resp.body, Header := resp.header, MaxAge := maxAge,
      LastModified := lastModified, CreationTime := now, StatusCode := resp.status }
  (FS.write fs key (CacheEntry.Bytes entry), resp.body)

/-! ## BlockedSet (blockedset.go)

`regexp.MatchString` is standard-library code; the patterns the claims
exercise are literals (no metacharacters), for which Go's unanchored match
holds iff the pattern occurs as a substring — and the empty pattern, the
compilation of a blank line, matches every string.  `reMatchString` models
exactly that fragment. -/

/-- Modelled from the source: regexp MatchString for literal patterns — an
unanchored match succeeds iff the pattern occurs as a substring of the
domain; the empty pattern (a compiled blank line) matches everything. -/
def reMatchString (pattern domain : String) : Bool :=
  hasSubList pattern.data domain.data

/-- NewBlockedSet (blockedset.go lines 19-37): one compiled pattern per
scanned line, in file order; every line is kept — the scanner yields blank
lines as empty strings and `regexp.Compile("")` succeeds. -/
def NewBlockedSet (lines : List String) : List String :=
  lines

/-- BlockedSet.IsBlocked (blockedset.go lines 42-49): true iff any pattern
matches the domain, tested in order with return on first hit. -/
def IsBlocked (bs : List String) (domain : String) : Bool :=
  bs.any (fun d => reMatchString d domain)

/-! ## The request handler (proxy.go, forwardProxy.ServeHTTP)

The handler is embedded as a function of the blocklist, the cache directory,
the current time, the result of the single upstream call `client.Do(req)`
(`none` = a non-nil error), and the request.  Its result is the observable
outcome at the client plus the cache directory left behind.  Logging and
timing calls have no observable effect and are dropped. -/

/-- Observable outcome of one request at the client. -/
inductive Outcome where
  /-- http.Error(w, msg, status): an error reply generated by the proxy. -/
  | errorReply : Int → String → Outcome
  /-- Status, shaped headers and body copied to the client. -/
  | reply : Int → Header → List Nat → Outcome
  /-- The request was delegated to handleTunneling. -/
  | tunnel : Outcome
  /-- http.Error(w, "Server Error", 500) was written and then log.Fatal ran:
  log.Fatal prints and calls os.Exit(1), terminating the whole process and
  with it every other in-flight request. -/
  | fatalServerError : Outcome
  /-- CacheEntryFromBytes panicked on an undecodable cache file. -/
  | panicked : Outcome
deriving DecidableEq

/-- The max-age scan (proxy.go lines 188-202): walk the comma-split
directives; on the first directive containing "max-age", split it on "=";
with exactly two parts, parse the trimmed value and stop (a parse error
leaves the initial -1); otherwise keep scanning. -/
def parseMaxAgeLoop : List String → Int
  | [] => -1
  | d :: ds =>
    if goContains d "max-age" then
      let parts := d.splitOn "="
      if parts.length == 2 then
        match goAtoi (parts.getD 1 "").trim with
        | some n => n
        | none => -1
      else parseMaxAgeLoop ds
    else parseMaxAgeLoop ds

/-- The cache-write branch (proxy.go lines 175-226): for a GET whose origin
`Cache-Control` contains "public", "no-cache" or "max-age" as a substring,
parse max-age, default `Last-Modified` to "na", and call Put (the source's
two Put calls coincide, since in the else branch maxAge is still -1).
Returns the directory, whether Put ran (`cachable == 0`), and the buffered
body `box`. -/
def cacheWriteStep (fs : FS) (now : Int) (req : Request) (resp : Response) :
    FS × Bool × List Nat :=
  if req.method == "GET" then
    let cacheControl := Header.Get resp.header "Cache-Control"
    if goContains cacheControl "public" || goContains cacheControl "no-cache" ||
        goContains cacheControl "max-age" then
      let maxAge :=
        if goContains cacheControl "max-age" then
          parseMaxAgeLoop (cacheControl.splitOn ",")
        else -1
      let lm := Header.Get resp.header "Last-Modified"
      let lastModified := if lm == "" then "na" else lm
      let put := HTTPCache.Put fs now req resp maxAge lastModified
      (put.1, true, put.2)
    else (fs, false, [])
  else (fs, false, [])

/-- Response-header shaping applied immediately before writing to the client,
identical on the cache-hit path (proxy.go lines 128-131) and the forwarding
path (lines 228-230): removeHopHeaders, then removeConnectionHeaders, then
copyHeader onto the ResponseWriter's empty header map. -/
def clientResponseHeaders (h : Header) : Header :=
  copyHeader [] (removeConnectionHeaders (removeHopHeaders h))

/-- The forwarding stage (proxy.go lines 146-242): on an upstream error the
source writes a 500 and then calls log.Fatal; on success it runs the
cache-write branch on the unstripped response headers, then strips and
copies the headers and streams the body (the tee buffer for cachable
responses, the upstream body otherwise — both hold the same bytes). -/
def forwardAndServe (fs : FS) (now : Int) (upstream : Option Response)
    (req : Request) : Outcome × FS :=
  match upstream with
  | none => (.fatalServerError, fs)
  | some resp =>
    let step := cacheWriteStep fs now req resp
    (.reply resp.status (clientResponseHeaders resp.header)
      (if step.2.1 then step.2.2 else resp.body), step.1)

/-- forwardProxy.ServeHTTP (proxy.go lines 100-242): blocked-domain check,
scheme check, CONNECT branch, GET cache lookup, then forwarding.  The checks
run in exactly the source's order: blocked, then scheme, then CONNECT. -/
def ServeHTTP (bs : List String) (fs : FS) (now : Int)
    (upstream : Option Response) (req : Request) : Outcome × FS :=
  if IsBlocked bs req.hostname then
    (.errorReply 403 "Forbidden Content", fs)
  else if req.scheme != "http" then
    (.errorReply 400 ("unsupported protocol scheme " ++ req.scheme), fs)
  else if req.method == "CONNECT" then
    (.tunnel, fs)
  else if req.method == "GET" then
    match HTTPCache.Get fs now req with
    | .panicked => (.panicked, fs)
    | .ok (some cached) true fs1 =>
      (.reply cached.status (clientResponseHeaders cached.header) cached.body, fs1)
    | .ok _ _ fs1 => forwardAndServe fs1 now upstream req
  else forwardAndServe fs now upstream req

/-! ## Claim-side definitions

Predicates transcribed from the claims' own words, kept separate from the
source embedding so the two can be compared. -/

/-- The cacheability condition as claim C5 words it: the `Cache-Control`
value contains one of `public`, `no-cache`, or `max-age=` (with the equals
sign). -/
def specClaimCacheable (cc : String) : Bool :=
  goContains cc "public" || goContains cc "no-cache" || goContains cc "max-age="

/-- The `X-Forwarded-For` value claim C9 predicts: prior values comma-space
joined, then ", " and the client IP; just the client IP when absent. -/
def xffClaimValue (header : Header) (host : String) : String :=
  match Header.get? header "X-Forwarded-For" with
  | some prior => String.intercalate ", " prior ++ ", " ++ host
  | none => host

/-! ## Helper lemmas -/

theorem alistFind_erase_self {α : Type} (l : List (String × α)) (k : String) :
    alistFind (alistErase l k) k = none := by
  have h : (alistErase l k).find? (fun p => p.1 == k) = none := by
    apply List.find?_eq_none.mpr
    intro p hp
    have h2 := (List.mem_filter.mp hp).2
    simp only [bne_iff_ne, ne_eq] at h2
    simp [h2]
  simp [alistFind, h]

theorem alistFind_append {α : Type} (l1 l2 : List (String × α)) (k : String)
    (h : alistFind l1 k = none) : alistFind (l1 ++ l2) k = alistFind l2 k := by
  have h1 : l1.find? (fun p => p.1 == k) = none := by
    cases hf : l1.find? (fun p => p.1 == k) with
    | none => rfl
    | some p => simp [alistFind, hf] at h
  simp [alistFind, List.find?_append, h1]

theorem alistFind_set {α : Type} (l : List (String × α)) (k : String) (v : α) :
    alistFind (alistErase l k ++ [(k, v)]) k = some v := by
  rw [alistFind_append _ _ _ (alistFind_erase_self l k)]
  simp [alistFind]

theorem header_get?_set_self (h : Header) (k v : String)
    (hc : CanonicalMIMEHeaderKey k = k) :
    Header.get? (Header.Set h k v) k = some [v] := by
  unfold Header.get? Header.Set
  rw [hc]
  exact alistFind_set h k [v]

theorem hasSubList_nil (l : List Char) : hasSubList [] l = true := by
  cases l with
  | nil => rfl
  | cons c cs => simp [hasSubList, List.isPrefixOf]

theorem int64Wrap_of_bounds (x : Int) (h1 : -9223372036854775808 ≤ x)
    (h2 : x < 9223372036854775808) : int64Wrap x = x := by
  unfold int64Wrap
  have hge : 0 ≤ x + 9223372036854775808 := by omega
  have hlt : x + 9223372036854775808 < 18446744073709551616 := by omega
  rw [Int.emod_eq_of_lt hge hlt]
  omega

theorem maxAgeDuration_eq (m : Int) (h1 : 0 < m) (h2 : m ≤ 9223372036) :
    maxAgeDuration m = m * 1000000000 := by
  unfold maxAgeDuration
  apply int64Wrap_of_bounds
  · nlinarith
  · nlinarith

/-! Codec round-trip lemmas. -/

theorem string_mk_data (s : String) : String.mk s.data = s := rfl

theorem decTake_append (xs r : List Nat) : decTake xs.length (xs ++ r) = some (xs, r) := by
  induction xs with
  | nil => rfl
  | cons x xs ih => simp [decTake, ih]

theorem decBytes_enc (xs r : List Nat) : decBytes ((xs.length :: xs) ++ r) = some (xs, r) := by
  simp [decBytes, decNat, decTake_append]

theorem decStr_enc (s : String) (r : List Nat) : decStr (encStr s ++ r) = some (s, r) := by
  have hlen : s.data.length = (s.data.map Char.toNat).length := by simp
  have hmap : (s.data.map Char.toNat).map Char.ofNat = s.data := by
    rw [List.map_map]
    have hpt : ∀ c ∈ s.data, (Char.ofNat ∘ Char.toNat) c = id c := by
      intro c _
      simp [Char.ofNat_toNat]
    rw [List.map_congr_left hpt, List.map_id]
  have h1 : encStr s ++ r = ((s.data.map Char.toNat).length :: s.data.map Char.toNat) ++ r := by
    simp [encStr]
  rw [decStr, h1, decBytes_enc]
  simp [hmap]

theorem decStrList_enc (vs : List String) (r : List Nat) :
    decStrList vs.length (encStrList vs ++ r) = some (vs, r) := by
  induction vs generalizing r with
  | nil => rfl
  | cons v vs ih =>
    have h1 : encStrList (v :: vs) ++ r = encStr v ++ (encStrList vs ++ r) := by
      simp [encStrList]
    simp [h1, decStrList, decStr_enc, ih]

theorem decHeaderEntries_enc (hs : List (String × List String)) (r : List Nat) :
    decHeaderEntries hs.length (encHeaderEntries hs ++ r) = some (hs, r) := by
  induction hs generalizing r with
  | nil => rfl
  | cons p t ih =>
    obtain ⟨k, vs⟩ := p
    have h1 : encHeaderEntries ((k, vs) :: t) ++ r
        = encStr k ++ (vs.length :: (encStrList vs ++ (encHeaderEntries t ++ r))) := by
      simp [encHeaderEntries]
    simp [h1, decHeaderEntries, decStr_enc, decNat, decStrList_enc, ih]

theorem decInt_enc (i : Int) (r : List Nat) : decInt (encInt i ++ r) = some (i, r) := by
  by_cases h : 0 ≤ i
  · simp [encInt, h, decInt, Int.toNat_of_nonneg h]
  · have h2 : 0 ≤ -i := by omega
    simp only [encInt, if_neg h, List.cons_append, List.nil_append, decInt]
    rw [Int.toNat_of_nonneg h2]
    simp

theorem decEntry_enc (e : CacheEntry) (r : List Nat) :
    decEntry (CacheEntry.Bytes e ++ r) = some (e, r) := by
  have h1 : CacheEntry.Bytes e ++ r
      = (e.Value.length :: e.Value) ++
        ((e.Header.length :: encHeaderEntries e.Header) ++
          (encInt e.MaxAge ++
            (encStr e.LastModified ++
              (encInt e.CreationTime ++ (encInt e.StatusCode ++ r))))) := by
    simp [CacheEntry.Bytes]
  rw [decEntry, h1, decBytes_enc]
  simp [decNat, decHeaderEntries_enc, decInt_enc, decStr_enc]

theorem cacheEntryFromBytes_bytes (e : CacheEntry) :
    CacheEntryFromBytes (CacheEntry.Bytes e) = some e := by
  have h := decEntry_enc e []
  rw [List.append_nil] at h
  rw [CacheEntryFromBytes, h]

/-! ## Claim theorems -/

/-- C1: the claim says an upstream error is answered with 500 Server Error
and stays within the request.  Evaluating the handler at failing inputs (any
request whose upstream call errors — here a POST and a GET with a cold
cache) shows the error branch ends in `Outcome.fatalServerError`: the source
writes the 500 and then calls `log.Fatal`, which terminates the whole
process and with it every other in-flight request. -/
theorem C1_upstream_error_terminates_process :
    (ServeHTTP [] [] 0 none
      { method := "POST", scheme := "http", url := "http://origin.invalid/p",
        hostname := "origin.invalid", header := [] }).1 = Outcome.fatalServerError
    ∧ (ServeHTTP [] [] 0 none
      { method := "GET", scheme := "http", url := "http://origin.invalid/g",
        hostname := "origin.invalid", header := [] }).1 = Outcome.fatalServerError := by
  decide

/-- C2 counterexample: a CONNECT request in authority form (empty URL
scheme, host not blocked) is answered 400 Bad Request with body
"unsupported protocol scheme " by the scheme check, and is not delegated to
the tunnel — refuting the claim that the scheme check never applies to
CONNECT. -/
theorem C2_connect_answered_400 :
    (ServeHTTP [] [] 0 none
      { method := "CONNECT", scheme := "", url := "secure.test:443",
        hostname := "secure.test", header := [] }).1
      = Outcome.errorReply 400 "unsupported protocol scheme "
    ∧ (ServeHTTP [] [] 0 none
      { method := "CONNECT", scheme := "", url := "secure.test:443",
        hostname := "secure.test", header := [] }).1 ≠ Outcome.tunnel := by
  decide

/-- C2 amended: the scheme check runs before the CONNECT branch, so a
non-blocked CONNECT request is delegated to the tunnel exactly when its URL
scheme is "http"; any other scheme (in particular the empty scheme of
authority-form CONNECT) is answered 400 Bad Request. -/
theorem C2_connect_tunnel_iff_http_scheme (bs : List String) (fs : FS) (now : Int)
    (up : Option Response) (req : Request)
    (h1 : IsBlocked bs req.hostname = false) (h2 : req.method = "CONNECT") :
    (ServeHTTP bs fs now up req).1 =
      if req.scheme = "http" then Outcome.tunnel
      else Outcome.errorReply 400 ("unsupported protocol scheme " ++ req.scheme) := by
  by_cases hs : req.scheme = "http"
  · simp [ServeHTTP, h1, h2, hs]
  · simp [ServeHTTP, h1, h2, hs]

/-- C2 witness: a CONNECT request whose scheme is "http" reaches the
tunnel. -/
theorem C2_witness :
    (ServeHTTP [] [] 0 none
      { method := "CONNECT", scheme := "http", url := "secure.test:443",
        hostname := "secure.test", header := [] }).1 = Outcome.tunnel := by
  have h := C2_connect_tunnel_iff_http_scheme [] [] 0 none
    { method := "CONNECT", scheme := "http", url := "secure.test:443",
      hostname := "secure.test", header := [] } (by decide) rfl
  simpa using h

/-- C3: failing-input evaluation of the response-header shaping shared by
the cache-hit and forwarding paths.  With origin headers
`Connection: X-Custom, Upgrade`, `X-Custom: 1`, `Upgrade: h2c`, the nine
hop-by-hop names are removed (`Connection`, `Upgrade` shown here), but the
`Connection`-listed header `X-Custom` SURVIVES in the headers written to the
client: `removeConnectionHeaders` runs after `removeHopHeaders` has already
deleted `Connection`, so it finds nothing to strip — contradicting the
claim that no `Connection`-listed header appears in the output. -/
theorem C3_connection_listed_header_survives :
    Header.get? (clientResponseHeaders
        [("Connection", ["X-Custom, Upgrade"]), ("X-Custom", ["1"]),
         ("Upgrade", ["h2c"]), ("Content-Type", ["text/html"])]) "X-Custom"
      = some ["1"]
    ∧ Header.get? (clientResponseHeaders
        [("Connection", ["X-Custom, Upgrade"]), ("X-Custom", ["1"]),
         ("Upgrade", ["h2c"]), ("Content-Type", ["text/html"])]) "Connection" = none
    ∧ Header.get? (clientResponseHeaders
        [("Connection", ["X-Custom, Upgrade"]), ("X-Custom", ["1"]),
         ("Upgrade", ["h2c"]), ("Content-Type", ["text/html"])]) "Upgrade" = none := by
  decide

/-- C4 counterexample: for max_age = 9223372037 the product
max_age * 10^9 overflows 64-bit signed arithmetic to a negative duration, so
an entry aged 0 nanoseconds is already reported stale, although the elapsed
time (0) does not exceed max_age seconds — refuting the claimed
"if and only if" for positive max_age. -/
theorem C4_maxage_overflow_cex :
    CacheEntry.isStale
      { Value := [], Header := [], MaxAge := 9223372037, LastModified := "na",
        CreationTime := 0, StatusCode := 200 } 0 = true
    ∧ ¬ ((0 : Int) - 0 > 9223372037 * 1000000000) := by
  decide

/-- C4 amended: isStale is true when max_age = 0, true for negative max_age,
and for positive max_age true iff the elapsed nanoseconds exceed the 64-bit
wrapped product max_age * 10^9 — which coincides with "elapsed exceeds
max_age seconds" whenever max_age ≤ 9223372036. -/
theorem C4_isStale_iff (e : CacheEntry) (now : Int) :
    (CacheEntry.isStale e now = true ↔
      (e.MaxAge = 0 ∨ (0 < e.MaxAge ∧ now - e.CreationTime > maxAgeDuration e.MaxAge)
        ∨ e.MaxAge < 0))
    ∧ (0 < e.MaxAge → e.MaxAge ≤ 9223372036 →
        (CacheEntry.isStale e now = true ↔
          now - e.CreationTime > e.MaxAge * 1000000000)) := by
  constructor
  · unfold CacheEntry.isStale
    by_cases h0 : e.MaxAge = 0
    · rw [if_pos h0]
      exact iff_of_true rfl (Or.inl h0)
    · by_cases hp : 0 < e.MaxAge
      · rw [if_neg h0, if_pos hp]
        simp only [decide_eq_true_eq]
        constructor
        · intro hgt
          exact Or.inr (Or.inl ⟨hp, hgt⟩)
        · rintro (h | ⟨_, hgt⟩ | h)
          · exact absurd h h0
          · exact hgt
          · omega
      · have hneg : e.MaxAge < 0 := by omega
        rw [if_neg h0, if_neg hp]
        exact iff_of_true rfl (Or.inr (Or.inr hneg))
  · intro hp hb
    have h0 : ¬ e.MaxAge = 0 := by omega
    unfold CacheEntry.isStale
    rw [if_neg h0, if_pos hp]
    simp only [decide_eq_true_eq]
    rw [maxAgeDuration_eq e.MaxAge hp hb]

/-- C4 witness: a fresh comparison in the unwrapped range — max_age = 4
seconds, elapsed 5 seconds, reported stale. -/
theorem C4_witness :
    CacheEntry.isStale
      { Value := [], Header := [], MaxAge := 4, LastModified := "na",
        CreationTime := 0, StatusCode := 200 } 5000000000 = true := by
  have h := (C4_isStale_iff
    { Value := [], Header := [], MaxAge := 4, LastModified := "na",
      CreationTime := 0, StatusCode := 200 } 5000000000).2 (by decide) (by decide)
  exact h.mpr (by decide)

/-- C5 counterexample: a GET whose origin response carries
`Cache-Control: max-age` (no equals sign, so none of the claim's tokens
`public`, `no-cache`, `max-age=` appears) still gets a cache file written,
because the source tests the substring "max-age" without the equals sign. -/
theorem C5_substring_maxage_written_cex :
    (FS.lookup
        (cacheWriteStep [] 0
          { method := "GET", scheme := "http", url := "http://o.test/a",
            hostname := "o.test", header := [] }
          { status := 200, header := [("Cache-Control", ["max-age"])],
            body := [104] }).1
        (HTTPCache.CacheKey "http://o.test/a")).isSome = true
    ∧ specClaimCacheable "max-age" = false := by
  decide

/-- C5 amended: starting from a cold key, the cache-write branch creates the
file exactly when the method is GET and the origin `Cache-Control` value
contains one of the substrings "public", "no-cache", or "max-age" (substring
containment, not token matching — in particular "max-age" without an equals
sign qualifies). -/
theorem C5_cache_write_iff (fs : FS) (now : Int) (req : Request) (resp : Response)
    (h : FS.lookup fs (HTTPCache.CacheKey req.url) = none) :
    (FS.lookup (cacheWriteStep fs now req resp).1 (HTTPCache.CacheKey req.url)).isSome = true
      ↔ (req.method = "GET" ∧
          (goContains (Header.Get resp.header "Cache-Control") "public" = true
            ∨ goContains (Header.Get resp.header "Cache-Control") "no-cache" = true
            ∨ goContains (Header.Get resp.header "Cache-Control") "max-age" = true)) := by
  unfold cacheWriteStep
  by_cases hm : (req.method == "GET") = true
  · rw [if_pos hm]
    by_cases hc : (goContains (Header.Get resp.header "Cache-Control") "public"
        || goContains (Header.Get resp.header "Cache-Control") "no-cache"
        || goContains (Header.Get resp.header "Cache-Control") "max-age") = true
    · rw [if_pos hc]
      apply iff_of_true
      · unfold HTTPCache.Put FS.write FS.lookup
        simp only
        rw [alistFind_set]
        rfl
      · rw [Bool.or_eq_true, Bool.or_eq_true] at hc
        exact ⟨by simpa using hm, by tauto⟩
    · rw [if_neg hc]
      apply iff_of_false
      · simp only [FS.lookup] at h ⊢
        simp [h]
      · rw [Bool.or_eq_true, Bool.or_eq_true] at hc
        push_neg at hc
        rintro ⟨-, hor⟩
        obtain ⟨⟨h1, h2⟩, h3⟩ := hc
        tauto
  · rw [if_neg hm]
    apply iff_of_false
    · simp only [FS.lookup] at h ⊢
      simp [h]
    · rintro ⟨hg, -⟩
      exact hm (by simp [hg])

/-- C5 witness: a GET with `Cache-Control: public` gets a cache file. -/
theorem C5_witness :
    (FS.lookup
        (cacheWriteStep [] 0
          { method := "GET", scheme := "http", url := "u", hostname := "o",
            header := [] }
          { status := 200, header := [("Cache-Control", ["public"])],
            body := [] }).1
        (HTTPCache.CacheKey "u")).isSome = true := by
  exact (C5_cache_write_iff [] 0
    { method := "GET", scheme := "http", url := "u", hostname := "o", header := [] }
    { status := 200, header := [("Cache-Control", ["public"])], body := [] }
    rfl).mpr (by decide)

/-- C6: Get reports a miss (`(nil, false)`) when the cache file is absent;
on a stale stored entry Get removes the file and reports a miss, after which
the file is gone and a second Get (at any later time) again reports a miss —
so two successive Gets of a stale entry both miss and leave no cache
file. -/
theorem C6_get_miss_and_stale_eviction (fs : FS) (now now2 : Int) (req : Request)
    (entry : CacheEntry) :
    (FS.lookup fs (HTTPCache.CacheKey req.url) = none →
      HTTPCache.Get fs now req = GetResult.ok none false fs)
    ∧ (FS.lookup fs (HTTPCache.CacheKey req.url) = some (CacheEntry.Bytes entry) →
       CacheEntry.isStale entry now = true →
         HTTPCache.Get fs now req
           = GetResult.ok none false
               (HTTPCache.RemoveCache fs (HTTPCache.CacheKey req.url))
         ∧ FS.lookup (HTTPCache.RemoveCache fs (HTTPCache.CacheKey req.url))
             (HTTPCache.CacheKey req.url) = none
         ∧ HTTPCache.Get (HTTPCache.RemoveCache fs (HTTPCache.CacheKey req.url)) now2 req
           = GetResult.ok none false
               (HTTPCache.RemoveCache fs (HTTPCache.CacheKey req.url))) := by
  constructor
  · intro h
    unfold HTTPCache.Get
    simp [h]
  · intro h hs
    have hdec := cacheEntryFromBytes_bytes entry
    have h2 : FS.lookup (HTTPCache.RemoveCache fs (HTTPCache.CacheKey req.url))
        (HTTPCache.CacheKey req.url) = none := alistFind_erase_self fs _
    refine ⟨?_, h2, ?_⟩
    · unfold HTTPCache.Get
      simp [h, hdec, hs]
    · unfold HTTPCache.Get
      simp [h2]

/-- C6 witness: a concrete always-stale entry (max_age = 0): the first Get
evicts and misses. -/
theorem C6_witness :
    HTTPCache.Get
      [("http://o.test/a", CacheEntry.Bytes
        { Value := [104], Header := [("A", ["b"])], MaxAge := 0,
          LastModified := "na", CreationTime := 0, StatusCode := 200 })] 5
      { method := "GET", scheme := "http", url := "http://o.test/a",
        hostname := "o.test", header := [] }
      = GetResult.ok none false
          (HTTPCache.RemoveCache
            [("http://o.test/a", CacheEntry.Bytes
              { Value := [104], Header := [("A", ["b"])], MaxAge := 0,
                LastModified := "na", CreationTime := 0, StatusCode := 200 })]
            (HTTPCache.CacheKey "http://o.test/a")) := by
  exact ((C6_get_miss_and_stale_eviction
    [("http://o.test/a", CacheEntry.Bytes
      { Value := [104], Header := [("A", ["b"])], MaxAge := 0,
        LastModified := "na", CreationTime := 0, StatusCode := 200 })] 5 0
    { method := "GET", scheme := "http", url := "http://o.test/a",
      hostname := "o.test", header := [] }
    { Value := [104], Header := [("A", ["b"])], MaxAge := 0,
      LastModified := "na", CreationTime := 0, StatusCode := 200 }).2
    (by decide) (by decide)).1

/-- C7: decoding the serialized form of any cache entry — status code,
headers with multiplicity and per-name value order, body bytes, max_age,
last_modified, creation_time — yields the original entry. -/
theorem C7_cache_entry_roundtrip (e : CacheEntry) :
    CacheEntryFromBytes (CacheEntry.Bytes e) = some e :=
  cacheEntryFromBytes_bytes e

/-- C8 counterexample: a blocklist file holding a single blank line blocks
"example.com" (the blank line compiles to the empty pattern, which matches
every host), while the same file with blank lines removed blocks nothing —
refuting the claimed equivalence. -/
theorem C8_blank_line_changes_isBlocked_cex :
    IsBlocked (NewBlockedSet [""]) "example.com" = true
    ∧ IsBlocked (NewBlockedSet (List.filter (fun l => !(l == "")) [""]))
        "example.com" = false := by
  decide

/-- C8 amended: construction keeps every line, blank lines included; a blank
line yields the empty pattern, which matches every host, so a BlockList
built from a file containing a blank line answers IsBlocked true for every
host. -/
theorem C8_blank_line_blocks_every_host (lines : List String) (host : String)
    (h : "" ∈ lines) :
    IsBlocked (NewBlockedSet lines) host = true := by
  unfold IsBlocked NewBlockedSet
  rw [List.any_eq_true]
  refine ⟨"", h, ?_⟩
  have hd : ("" : String).data = [] := rfl
  rw [reMatchString, hd]
  exact hasSubList_nil host.data

/-- C8 witness: a list with a blank line blocks an arbitrary host. -/
theorem C8_witness :
    IsBlocked (NewBlockedSet ["", "gov.bg"]) "whatever.test" = true :=
  C8_blank_line_blocks_every_host ["", "gov.bg"] "whatever.test" (by decide)

/-- C9: appending a client IP to `X-Forwarded-For` yields exactly the
claim's value — prior values comma-space joined, then ", " and the client
IP; just the client IP when the header was absent — and that value ends
with the client IP (prior values preceding it in order inside the joined
prefix). -/
theorem C9_append_xforwardedfor (header : Header) (host : String) :
    Header.get? (appendHostToXForwardHeader header host) "X-Forwarded-For"
      = some [xffClaimValue header host]
    ∧ host.data <:+ (xffClaimValue header host).data := by
  have hck : CanonicalMIMEHeaderKey "X-Forwarded-For" = "X-Forwarded-For" := by decide
  unfold appendHostToXForwardHeader xffClaimValue
  cases hx : Header.get? header "X-Forwarded-For" with
  | some prior =>
    refine ⟨header_get?_set_self header _ _ hck, ?_⟩
    rw [String.data_append]
    exact List.suffix_append _ _
  | none =>
    exact ⟨header_get?_set_self header _ _ hck, List.suffix_refl _⟩

/-- C10: the empty byte sequence (e.g. a truncated cache file) does not
decode as a CacheEntry, on which the source's CacheEntryFromBytes calls
`panic(err)`; consequently Get on a cache directory whose file for the key
holds such bytes panics instead of treating the file as a miss. -/
theorem C10_corrupt_cache_file_panics :
    CacheEntryFromBytes [] = none
    ∧ HTTPCache.Get [("http://o.test/a", [])] 0
        { method := "GET", scheme := "http", url := "http://o.test/a",
          hostname := "o.test", header := [] } = GetResult.panicked := by
  decide

end ProxyGo
